import Mathlib

/-!
Shallow embedding of the tenant-security, policy-risk and policy-rule
evaluation code of the data-fabric repository
(src/tenant_security.rs, src/policy.rs, src/db.rs), together with
theorems checking the specification's claims about that code.

Conventions of the embedding:
* Rust `u64`/`u32`/`usize` become `Nat`; `u64::saturating_sub` is `Nat`
  subtraction (which is saturating).
* `serde_json::Value` becomes the inductive `Json`; objects are
  association lists in insertion order.
* `HashSet<Permission>` becomes `List Permission` with decidable
  membership (all uses are membership tests).
* Fallible / panicking code returns `Except`.
* Rust `&mut` state is explicit state passing.
-/

namespace DataFabric

/-- JSON values (serde_json::Value); numbers are modelled as integers,
no claim depends on numeric values. -/
inductive Json where
  | null : Json
  | bool (b : Bool) : Json
  | num (n : Int) : Json
  | str (s : String) : Json
  | arr (xs : List Json) : Json
  | obj (fields : List (String × Json)) : Json

/-- Rust `str::to_ascii_lowercase` (also used for `to_lowercase`, whose
difference only concerns non-ASCII letters). -/
def lowerAscii (s : String) : String :=
  String.mk (s.data.map (fun c => if 'A' ≤ c ∧ c ≤ 'Z' then Char.ofNat (c.toNat + 32) else c))

/-- Substring test on char lists, helper for `containsSub`. -/
def containsSubAux (needle : List Char) : List Char → Bool
  | [] => needle.isEmpty
  | c :: rest => needle.isPrefixOf (c :: rest) || containsSubAux needle rest

/-- Rust `str::contains(needle)`.  Char-level matching is equivalent to
Rust's byte-level matching because UTF-8 is self-synchronizing. -/
def containsSub (hay needle : String) : Bool :=
  containsSubAux needle.data hay.data

/-- Rust `str::starts_with(p)`. -/
def startsWithStr (s p : String) : Bool :=
  p.data.isPrefixOf s.data

/-- Rust `str::len()` for a UTF-8 string: its length in bytes. -/
def utf8Len (s : String) : Nat :=
  (s.data.map Char.utf8Size).sum

/-- Rust byte slice `&s[..n]` restricted to the chars of `s`:
`some` of the chars covering exactly the first `n` bytes, or `none`
when byte index `n` is not a char boundary (where Rust panics). -/
def takeUtf8Bytes : Nat → List Char → Option (List Char)
  | 0, _ => some []
  | _ + 1, [] => none
  | n + 1, c :: rest =>
    if c.utf8Size ≤ n + 1 then
      match takeUtf8Bytes (n + 1 - c.utf8Size) rest with
      | some p => some (c :: p)
      | none => none
    else none

-- ── tenant_security.rs: AuthZ framework ─────────────────────────────

/-- Actions that can be performed on resources (`enum Permission`). -/
inductive Permission where
  | Read | Write | Admin | Federation
  deriving DecidableEq

/-- Roles assignable to tenant members (`enum Role`). -/
inductive Role where
  | Reader | Contributor | Admin | SystemService
  deriving DecidableEq

/-- Resource descriptor used for access checks (`struct Resource`). -/
structure Resource where
  tenant_id : String
  resource_type : String
  resource_id : String
  deriving DecidableEq

/-- Token claims extracted from request authentication
(`struct TokenClaims`). -/
structure TokenClaims where
  tenant_id : String
  role : Role
  scoped_permissions : Option (List Permission)

/-- Errors produced by the authorization framework (`enum AuthzError`). -/
inductive AuthzError where
  | PermissionDenied (role : Role) (required : Permission)
  | CrossTenantAccess (requesting_tenant resource_tenant : String)
  | RateLimitExceeded (tenant_id : String) (limit : Nat)
  deriving DecidableEq

/-- The rule map of `AuthzPolicy::default()`: (role, resource_type) to
permission set; the default policy only has wildcard entries. -/
def defaultPolicyRules : List ((Role × String) × List Permission) :=
  [ ((Role.Reader, "*"), [Permission.Read]),
    ((Role.Contributor, "*"), [Permission.Read, Permission.Write]),
    ((Role.Admin, "*"),
      [Permission.Read, Permission.Write, Permission.Admin, Permission.Federation]),
    ((Role.SystemService, "*"),
      [Permission.Read, Permission.Write, Permission.Federation]) ]

/-- `HashMap::get` on the rule map. -/
def lookupRules (rules : List ((Role × String) × List Permission))
    (key : Role × String) : Option (List Permission) :=
  (rules.find? (fun e => decide (e.1 = key))).map (·.2)

/-- `AuthzPolicy::permissions_for_role_resource`: look up (role,
resource_type), fall back to the wildcard entry, default to empty. -/
def permissions_for_role_resource (rules : List ((Role × String) × List Permission))
    (role : Role) (resource_type : String) : List Permission :=
  match lookupRules rules (role, resource_type) with
  | some ps => ps
  | none => (lookupRules rules (role, "*")).getD []

/-- `evaluate_authz(claims, resource, action)`: tenant boundary check,
then permission check preferring token-scoped overrides over the
default policy. -/
def evaluate_authz (claims : TokenClaims) (resource : Resource)
    (action : Permission) : Except AuthzError Unit :=
  if claims.tenant_id ≠ resource.tenant_id then
    Except.error (AuthzError.CrossTenantAccess claims.tenant_id resource.tenant_id)
  else
    let effective := match claims.scoped_permissions with
      | some sc => sc
      | none => permissions_for_role_resource defaultPolicyRules claims.role
          resource.resource_type
    if action ∈ effective then Except.ok ()
    else Except.error (AuthzError.PermissionDenied claims.role action)

-- ── tenant_security.rs: rate limiting ───────────────────────────────

/-- Per-tenant rate-limit configuration (`struct TenantRateLimitConfig`). -/
structure TenantRateLimitConfig where
  requests_per_minute : Nat
  burst_limit : Nat
  quota_bytes : Nat
  deriving DecidableEq

/-- Sliding-window counter state (`struct RateLimitState`). -/
structure RateLimitState where
  window_hits : List Nat
  consecutive_failures : Nat
  circuit_open_until : Option Nat
  deriving DecidableEq

/-- `RateLimitState::new`. -/
def RateLimitState.new : RateLimitState :=
  { window_hits := [], consecutive_failures := 0, circuit_open_until := none }

/-- `RateLimitState::record_success`. -/
def record_success (s : RateLimitState) : RateLimitState :=
  { s with consecutive_failures := 0 }

/-- `RateLimitState::record_failure`. -/
def record_failure (s : RateLimitState) : RateLimitState :=
  { s with consecutive_failures := s.consecutive_failures + 1 }

/-- Errors from rate limiting (`enum RateLimitError`). -/
inductive RateLimitError where
  | Exceeded (tenant_id : String) (limit : Nat)
  | CircuitOpen (tenant_id : String) (until_ms : Nat)
  deriving DecidableEq

/-- `CIRCUIT_BREAKER_THRESHOLD`. -/
def CIRCUIT_BREAKER_THRESHOLD : Nat := 5

/-- `CIRCUIT_COOLDOWN_MS` (30 seconds). -/
def CIRCUIT_COOLDOWN_MS : Nat := 30000

/-- Body of `check_rate_limit` after the circuit-open early return:
trip the breaker on too many consecutive failures, prune the sliding
window, enforce `requests_per_minute + burst_limit`, record the hit. -/
def check_rate_limit_core (tenant_id : String) (config : TenantRateLimitConfig)
    (state : RateLimitState) (now_ms : Nat) :
    Except RateLimitError Unit × RateLimitState :=
  if CIRCUIT_BREAKER_THRESHOLD ≤ state.consecutive_failures then
    let u := now_ms + CIRCUIT_COOLDOWN_MS
    (Except.error (RateLimitError.CircuitOpen tenant_id u),
      { state with circuit_open_until := some u })
  else
    let window_start := now_ms - 60000
    let hits := state.window_hits.filter (fun ts => decide (window_start ≤ ts))
    if config.requests_per_minute + config.burst_limit ≤ hits.length then
      (Except.error (RateLimitError.Exceeded tenant_id config.requests_per_minute),
        { state with window_hits := hits })
    else
      (Except.ok (), { state with window_hits := hits ++ [now_ms] })

/-- `check_rate_limit(tenant_id, config, state, now_ms)`: fail fast
while the circuit is open, auto-close it after the cooldown (resetting
the failure counter), then run the core check. -/
def check_rate_limit (tenant_id : String) (config : TenantRateLimitConfig)
    (state : RateLimitState) (now_ms : Nat) :
    Except RateLimitError Unit × RateLimitState :=
  match state.circuit_open_until with
  | some u =>
    if now_ms < u then
      (Except.error (RateLimitError.CircuitOpen tenant_id u), state)
    else
      check_rate_limit_core tenant_id config
        { state with circuit_open_until := none, consecutive_failures := 0 } now_ms
  | none => check_rate_limit_core tenant_id config state now_ms

/-- Run a sequence of `check_rate_limit` calls, collecting results. -/
def run_checks (tenant_id : String) (config : TenantRateLimitConfig) :
    RateLimitState → List Nat → List (Except RateLimitError Unit) × RateLimitState
  | st, [] => ([], st)
  | st, t :: ts =>
    let r := check_rate_limit tenant_id config st t
    let rest := run_checks tenant_id config r.2 ts
    (r.1 :: rest.1, rest.2)

/-- Whether an `Except` result is `ok`. -/
def exceptIsOk : Except RateLimitError Unit → Bool
  | Except.ok _ => true
  | Except.error _ => false

-- ── tenant_security.rs: secret handling and federation ──────────────

/-- Classification for data sensitivity (`enum SecretClassification`,
derives `Ord` in declaration order). -/
inductive SecretClassification where
  | Public | Internal | Confidential | Restricted
  deriving DecidableEq

/-- Numeric rank realizing the derived `Ord` of `SecretClassification`. -/
def classRank : SecretClassification → Nat
  | SecretClassification.Public => 0
  | SecretClassification.Internal => 1
  | SecretClassification.Confidential => 2
  | SecretClassification.Restricted => 3

/-- `RESTRICTED_FIELDS`. -/
def RESTRICTED_FIELDS : List String :=
  ["password", "secret", "token", "api_key", "apikey", "private_key",
   "credential", "credentials", "ssn", "credit_card"]

/-- `CONFIDENTIAL_FIELDS`. -/
def CONFIDENTIAL_FIELDS : List String :=
  ["email", "phone", "address", "ip_address", "session_id", "cookie"]

/-- `INTERNAL_FIELDS`. -/
def INTERNAL_FIELDS : List String :=
  ["tenant_id", "user_id", "account_id", "internal_id", "trace_id"]

/-- `classify_field(field_name)`: classify by substring patterns on the
ASCII-lowercased name, most sensitive tier first. -/
def classify_field (field_name : String) : SecretClassification :=
  let lower := lowerAscii field_name
  if RESTRICTED_FIELDS.any (fun p => containsSub lower p) then
    SecretClassification.Restricted
  else if CONFIDENTIAL_FIELDS.any (fun p => containsSub lower p) then
    SecretClassification.Confidential
  else if INTERNAL_FIELDS.any (fun p => containsSub lower p) then
    SecretClassification.Internal
  else
    SecretClassification.Public

/-- The violation-collecting loop of `validate_no_plaintext_secrets`:
a field classified `>= Confidential` whose value is a non-empty string
not starting with `enc:` or `***` is a violation. -/
def secretViolations : List (String × Json) → List String
  | [] => []
  | (k, v) :: rest =>
    let tail := secretViolations rest
    if classRank SecretClassification.Confidential ≤ classRank (classify_field k) then
      match v with
      | Json.str s =>
        if startsWithStr s "enc:" = false ∧ startsWithStr s "***" = false ∧ s ≠ "" then
          k :: tail
        else tail
      | _ => tail
    else tail

/-- `validate_no_plaintext_secrets(record)`: `ok` when no violations,
otherwise `error` with the offending field names. -/
def validate_no_plaintext_secrets (record : Json) : Except (List String) Unit :=
  let violations := match record with
    | Json.obj fields => secretViolations fields
    | _ => []
  if violations = [] then Except.ok () else Except.error violations

/-- The distinguished Rust panic of `redact_sensitive_fields`: slicing
`&s[..2]` at a byte index that is not a char boundary. -/
inductive RustPanic where
  | byteIndexNotCharBoundary
  deriving DecidableEq

/-- Redaction of one field value given its classification: Restricted
is replaced wholesale; a Confidential string longer than 4 bytes keeps
its first 2 bytes via `&s[..2]` (which panics off a char boundary). -/
def redactValue (cls : SecretClassification) (v : Json) : Except RustPanic Json :=
  if cls = SecretClassification.Restricted then
    Except.ok (Json.str "***REDACTED***")
  else if cls = SecretClassification.Confidential then
    match v with
    | Json.str s =>
      if 4 < utf8Len s then
        match takeUtf8Bytes 2 s.data with
        | some p => Except.ok (Json.str (String.mk p ++ "***"))
        | none => Except.error RustPanic.byteIndexNotCharBoundary
      else Except.ok (Json.str "***")
    | _ => Except.ok (Json.str "***")
  else Except.ok v

/-- The field loop of `redact_sensitive_fields`. -/
def redactObj : List (String × Json) → Except RustPanic (List (String × Json))
  | [] => Except.ok []
  | (k, v) :: rest => do
    let r ← redactValue (classify_field k) v
    let tail ← redactObj rest
    return (k, r) :: tail

/-- `redact_sensitive_fields(record)`: shallow redaction of a JSON
object's fields; non-objects are returned unchanged. -/
def redact_sensitive_fields (record : Json) : Except RustPanic Json :=
  match record with
  | Json.obj fields => (redactObj fields).map Json.obj
  | other => Except.ok other

mutual

/-- `anonymize_for_federation(data)`: strip fields classified
Confidential or Restricted, recursing into kept values and arrays. -/
def anonymize_for_federation : Json → Json
  | Json.obj fields => Json.obj (anonymizeFields fields)
  | Json.arr xs => Json.arr (anonymizeList xs)
  | other => other

/-- Object-field loop of `anonymize_for_federation`. -/
def anonymizeFields : List (String × Json) → List (String × Json)
  | [] => []
  | (k, v) :: rest =>
    if classRank (classify_field k) < classRank SecretClassification.Confidential then
      (k, anonymize_for_federation v) :: anonymizeFields rest
    else anonymizeFields rest

/-- Array loop of `anonymize_for_federation`. -/
def anonymizeList : List Json → List Json
  | [] => []
  | x :: xs => anonymize_for_federation x :: anonymizeList xs

end

-- ── policy.rs: risk classification ──────────────────────────────────

/-- Risk tiers (`enum RiskLevel`). -/
inductive RiskLevel where
  | Low | Medium | High | Critical
  deriving DecidableEq

/-- Escaping of one char for the JSON serializer. -/
def escapeJsonChar (c : Char) : List Char :=
  if c = '"' then ['\\', '"']
  else if c = '\\' then ['\\', '\\']
  else if c = '\n' then ['\\', 'n']
  else if c = '\t' then ['\\', 't']
  else if c = '\r' then ['\\', 'r']
  else [c]

/-- String escaping for the JSON serializer. -/
def escapeJson (s : String) : String :=
  String.mk (s.data.map escapeJsonChar).flatten

mutual

/-- Compact serializer for `Json`, standing in for serde_json's
`Value::to_string()`; theorems about `classify_risk` treat the
serialized context opaquely, so minor escaping differences to serde
are immaterial. -/
def jsonToString : Json → String
  | Json.null => "null"
  | Json.bool true => "true"
  | Json.bool false => "false"
  | Json.num n => toString n
  | Json.str s => "\"" ++ escapeJson s ++ "\""
  | Json.arr xs => "[" ++ jsonListToString xs ++ "]"
  | Json.obj fs => "\x7b" ++ jsonFieldsToString fs ++ "\x7d"

/-- Comma-joined serialization of an array's elements. -/
def jsonListToString : List Json → String
  | [] => ""
  | [x] => jsonToString x
  | x :: y :: rest => jsonToString x ++ "," ++ jsonListToString (y :: rest)

/-- Comma-joined serialization of an object's fields. -/
def jsonFieldsToString : List (String × Json) → String
  | [] => ""
  | [(k, v)] => "\"" ++ escapeJson k ++ "\":" ++ jsonToString v
  | (k, v) :: f :: rest =>
    "\"" ++ escapeJson k ++ "\":" ++ jsonToString v ++ "," ++
      jsonFieldsToString (f :: rest)

end

/-- `has_any(s, terms)`: whether any term occurs in `s`. -/
def has_any (s : String) (terms : List String) : Bool :=
  terms.any (fun t => containsSub s t)

/-- Critical-tier keywords of `classify_risk`. -/
def CRITICAL_RISK_TERMS : List String :=
  ["wipe", "destroy", "terminate", "root-key", "irreversible", "hard-delete"]

/-- High-tier keywords of `classify_risk`. -/
def HIGH_RISK_TERMS : List String :=
  ["deploy", "delete", "drop", "credential", "secret", "production", "prod",
   "revoke", "merge-main", "push-main"]

/-- Medium-tier keywords of `classify_risk`. -/
def MEDIUM_RISK_TERMS : List String :=
  ["create", "update", "write", "put", "patch", "commit", "index"]

/-- Low-tier keywords of `classify_risk`. -/
def LOW_RISK_TERMS : List String :=
  ["read", "get", "list", "query", "search", "status", "health", "trace"]

/-- The haystack of `classify_risk`: lower-cased action, resource and
serialized context joined by single spaces
(`format!("{a} {r} {c}")`). -/
def risk_haystack (action : String) (resource : Option String)
    (context : Option Json) : String :=
  let a := lowerAscii action
  let r := lowerAscii (resource.getD "")
  let c := match context with
    | some v => lowerAscii (jsonToString v)
    | none => ""
  a ++ " " ++ r ++ " " ++ c

/-- `classify_risk(action, resource, context)`: keyword membership in
four tiers, most severe first, first match wins; default Medium. -/
def classify_risk (action : String) (resource : Option String)
    (context : Option Json) : RiskLevel :=
  let hay := risk_haystack action resource context
  if has_any hay CRITICAL_RISK_TERMS then RiskLevel.Critical
  else if has_any hay HIGH_RISK_TERMS then RiskLevel.High
  else if has_any hay MEDIUM_RISK_TERMS then RiskLevel.Medium
  else if has_any hay LOW_RISK_TERMS then RiskLevel.Low
  else RiskLevel.Medium

-- ── db.rs: D1 CRUD-rule policy evaluation ───────────────────────────

/-- A stored tenant policy rule (`struct PolicyRuleRow`, the fields the
evaluator reads). -/
structure PolicyRuleRow where
  id : String
  action_pattern : String
  resource_pattern : String
  actor_pattern : String
  verdict : String
  reason : String
  risk_level : String
  deriving DecidableEq

/-- A policy check request (`struct PolicyCheckRequest`). -/
structure PolicyCheckRequest where
  action : String
  resource : Option String
  actor : String
  deriving DecidableEq

/-- Rust `str::strip_suffix(suf)`. -/
def stripSuffixStr (s suf : String) : Option String :=
  if suf.data.isSuffixOf s.data then
    some (String.mk (s.data.take (s.data.length - suf.data.length)))
  else none

/-- Rust `str::trim_end_matches(c)`. -/
def trimEndMatchesChar (s : String) (c : Char) : String :=
  String.mk ((s.data.reverse.dropWhile (fun x => decide (x = c))).reverse)

/-- `pattern_matches(pattern, value)`: `*` matches anything, a pattern
ending in `:` or `:*` matches by prefix, otherwise exact equality. -/
def pattern_matches (pat value : String) : Bool :=
  if pat = "*" then true
  else
    match stripSuffixStr pat ":" with
    | some pfx => startsWithStr value pfx || value == trimEndMatchesChar pfx ':'
    | none =>
      match stripSuffixStr pat ":*" with
      | some pfx => startsWithStr value (pfx ++ ":") || value == pfx
      | none => pat == value

/-- Whether a string contains a `*` (Rust `str::contains('*')`). -/
def fieldStarContains (s : String) : Bool :=
  s.data.any (fun c => decide (c = '*'))

/-- `specificity_score(action, resource, actor)`: per-field additive
score, accumulated exactly as the source does. -/
def specificity_score (action resource actor : String) : Nat :=
  let score : Nat := 0
  let score := if action ≠ "*" then
    score + (if fieldStarContains action then 1 else 2) else score
  let score := if resource ≠ "*" then
    score + (if fieldStarContains resource then 1 else 2) else score
  let score := if actor ≠ "*" then
    score + (if fieldStarContains actor then 1 else 2) else score
  score

/-- Refinement-side restatement of the spec's wording of the score:
2 points per exact (star-free) field, 1 point per wildcarded-but-non-`*`
field, 0 for a bare `*`.  Compared against `specificity_score` in the
theorem for the specificity claim. -/
def spec_field_points (s : String) : Nat :=
  if s = "*" then 0 else if fieldStarContains s then 1 else 2

/-- The three `pattern_matches` guards of the `evaluate_policy` loop
(the loop `continue`s unless all three match). -/
def ruleMatches (req : PolicyCheckRequest) (rule : PolicyRuleRow) : Bool :=
  pattern_matches rule.action_pattern req.action &&
  pattern_matches rule.resource_pattern (req.resource.getD "") &&
  pattern_matches rule.actor_pattern req.actor

/-- The specificity score of a rule's three patterns. -/
def ruleScore (rule : PolicyRuleRow) : Nat :=
  specificity_score rule.action_pattern rule.resource_pattern rule.actor_pattern

/-- The best-match accumulator loop of `evaluate_policy`: keep the
first rule seen with the strictly highest specificity score. -/
def find_best_rule_aux (req : PolicyCheckRequest) :
    Option (PolicyRuleRow × Nat) → List PolicyRuleRow → Option (PolicyRuleRow × Nat)
  | best, [] => best
  | best, rule :: rest =>
    if ruleMatches req rule then
      let s := ruleScore rule
      match best with
      | none => find_best_rule_aux req (some (rule, s)) rest
      | some (b, bs) =>
        if bs < s then find_best_rule_aux req (some (rule, s)) rest
        else find_best_rule_aux req (some (b, bs)) rest
    else find_best_rule_aux req best rest

/-- The best-match selection of `evaluate_policy` over the enabled
rules in query order. -/
def find_best_rule (req : PolicyCheckRequest) (rules : List PolicyRuleRow) :
    Option (PolicyRuleRow × Nat) :=
  find_best_rule_aux req none rules

/-- `classify_action_risk(action)`: risk class by naming convention on
the lowercased action. -/
def classify_action_risk (action : String) : String :=
  let a := lowerAscii action
  if startsWithStr a "read" || startsWithStr a "get" || startsWithStr a "list" ||
      startsWithStr a "view" || startsWithStr a "describe" then "read"
  else if startsWithStr a "delete" || startsWithStr a "drop" ||
      startsWithStr a "destroy" || startsWithStr a "purge" then "destructive"
  else if startsWithStr a "deploy:prod" || containsSub a "irreversible" ||
      startsWithStr a "revoke" then "irreversible"
  else "write"

/-- The pure core of `evaluate_policy(db, req)`: given the enabled
rules in query order, return `(verdict, reason, risk_level,
matched_rule_id)`; with no matching rule, fall back by inferred
action risk. -/
def evaluate_policy (rules : List PolicyRuleRow) (req : PolicyCheckRequest) :
    String × String × String × Option String :=
  match find_best_rule req rules with
  | some (rule, _) => (rule.verdict, rule.reason, rule.risk_level, some rule.id)
  | none =>
    let risk := classify_action_risk req.action
    let vr : String × String :=
      if risk = "read" then
        ("allow", "no matching rule; read actions default-allowed")
      else if risk = "write" then
        ("allow", "no matching rule; write actions default-allowed")
      else if risk = "destructive" ∨ risk = "irreversible" then
        ("escalate", "no matching rule; high-risk action requires explicit policy")
      else ("allow", "no matching rule; default-allowed")
    (vr.1, vr.2, risk, none)

-- ── Theorems ────────────────────────────────────────────────────────

/-- C1: whenever the token's tenant id differs from the resource's,
`evaluate_authz` returns the `CrossTenantAccess` error — for every
role (including Admin) and any scoped permissions; the permission
check is never consulted. -/
theorem claim_C1 (claims : TokenClaims) (resource : Resource) (action : Permission)
    (h : claims.tenant_id ≠ resource.tenant_id) :
    evaluate_authz claims resource action =
      Except.error (AuthzError.CrossTenantAccess claims.tenant_id resource.tenant_id) := by
  unfold evaluate_authz
  rw [if_pos h]

/-- Witness for C1: an Admin with full scoped permissions is still
denied across the tenant boundary. -/
theorem claim_C1_witness :
    (("tenant-a" : String) ≠ "tenant-b") ∧
    evaluate_authz
        ⟨"tenant-a", Role.Admin,
          some [Permission.Read, Permission.Write, Permission.Admin, Permission.Federation]⟩
        ⟨"tenant-b", "run", "r1"⟩ Permission.Admin =
      Except.error (AuthzError.CrossTenantAccess "tenant-a" "tenant-b") :=
  ⟨by decide,
    claim_C1
      ⟨"tenant-a", Role.Admin,
        some [Permission.Read, Permission.Write, Permission.Admin, Permission.Federation]⟩
      ⟨"tenant-b", "run", "r1"⟩ Permission.Admin (by decide)⟩

/-- C2: with matching tenant ids and explicit scoped permissions in
the token, the action is authorized iff it belongs to the scoped set —
the scoped set fully replaces the role-derived set. -/
theorem claim_C2 (claims : TokenClaims) (resource : Resource) (action : Permission)
    (sc : List Permission)
    (ht : claims.tenant_id = resource.tenant_id)
    (hs : claims.scoped_permissions = some sc) :
    evaluate_authz claims resource action = Except.ok () ↔ action ∈ sc := by
  unfold evaluate_authz
  rw [if_neg (fun hne => hne ht), hs]
  by_cases hm : action ∈ sc
  · simp [hm]
  · simp [hm]

/-- Witness for C2: a Reader whose token scopes only Write is allowed
Write and denied Read. -/
theorem claim_C2_witness :
    evaluate_authz ⟨"t1", Role.Reader, some [Permission.Write]⟩
        ⟨"t1", "run", "r1"⟩ Permission.Write = Except.ok () ∧
    evaluate_authz ⟨"t1", Role.Reader, some [Permission.Write]⟩
        ⟨"t1", "run", "r1"⟩ Permission.Read ≠ Except.ok () :=
  ⟨(claim_C2 ⟨"t1", Role.Reader, some [Permission.Write]⟩ ⟨"t1", "run", "r1"⟩
      Permission.Write [Permission.Write] rfl rfl).mpr (by decide),
    fun h =>
      absurd ((claim_C2 ⟨"t1", Role.Reader, some [Permission.Write]⟩ ⟨"t1", "run", "r1"⟩
        Permission.Read [Permission.Write] rfl rfl).mp h) (by decide)⟩

/-- C3 counterexample: replacing only the `password` value by `enc:xx`
does not make the record pass — `email` is still a plaintext
Confidential value, so the call returns a non-empty violation list,
contradicting the claim that it passes. -/
theorem claim_C3_counterexample :
    validate_no_plaintext_secrets
        (Json.obj [("password", Json.str "enc:xx"), ("email", Json.str "a@b.com")]) =
      Except.error ["email"] ∧
    (Except.error ["email"] : Except (List String) Unit) ≠ Except.ok () :=
  ⟨rfl, fun h => Except.noConfusion h⟩

/-- C3 (amended): the original record yields violations exactly
`password` and `email`; with `password` replaced by `enc:xx` the call
still fails, with exactly `email`; it passes once `email` is also an
`enc:`-prefixed value. -/
theorem claim_C3 :
    (∃ vs, validate_no_plaintext_secrets
        (Json.obj [("password", Json.str "hunter2"), ("email", Json.str "a@b.com")]) =
          Except.error vs ∧
        "password" ∈ vs ∧ "email" ∈ vs ∧ vs.length = 2) ∧
    validate_no_plaintext_secrets
        (Json.obj [("password", Json.str "enc:xx"), ("email", Json.str "a@b.com")]) =
      Except.error ["email"] ∧
    validate_no_plaintext_secrets
        (Json.obj [("password", Json.str "enc:xx"), ("email", Json.str "enc:yy")]) =
      Except.ok () :=
  ⟨⟨["password", "email"], rfl, by decide, by decide, rfl⟩, rfl, rfl⟩

/-- C6: whenever the combined lower-cased haystack of action, resource
and context contains a Critical-tier keyword, `classify_risk` returns
Critical, regardless of any other keywords present. -/
theorem claim_C6 (action : String) (resource : Option String) (context : Option Json)
    (h : has_any (risk_haystack action resource context) CRITICAL_RISK_TERMS = true) :
    classify_risk action resource context = RiskLevel.Critical := by
  simp [classify_risk, h]

/-- Witness for C6: an action containing `wipe` next to a resource
containing the High-tier keyword `prod` is still Critical. -/
theorem claim_C6_witness :
    has_any (risk_haystack "Wipe-Tenant" (some "prod-db") none) CRITICAL_RISK_TERMS = true ∧
    classify_risk "Wipe-Tenant" (some "prod-db") none = RiskLevel.Critical :=
  ⟨by decide, claim_C6 "Wipe-Tenant" (some "prod-db") none (by decide)⟩

/-- C9 is refuted by the code: `redact_sensitive_fields` is not total.
Partial masking slices the first 2 bytes (`&s[..2]`) of a Confidential
string longer than 4 bytes, which panics when byte 2 is not a char
boundary — e.g. `{"email": "€€"}` ('€' is 3 bytes).  ASCII values are
masked fine. -/
theorem claim_C9_bug :
    redact_sensitive_fields (Json.obj [("email", Json.str "€€")]) =
      Except.error RustPanic.byteIndexNotCharBoundary ∧
    redact_sensitive_fields (Json.obj [("email", Json.str "user@example.com")]) =
      Except.ok (Json.obj [("email", Json.str "us***")]) :=
  ⟨rfl, rfl⟩

/-- Anonymized object fields produce no plaintext-secret violations:
every kept field is classified below Confidential, and only fields
classified Confidential or above can violate. -/
theorem secretViolations_anonymizeFields (fields : List (String × Json)) :
    secretViolations (anonymizeFields fields) = [] := by
  induction fields with
  | nil => rfl
  | cons kv rest ih =>
    obtain ⟨k, v⟩ := kv
    simp only [anonymizeFields]
    split
    · rename_i hk
      simp only [secretViolations]
      rw [if_neg (by omega)]
      exact ih
    · exact ih

/-- C10: anonymization followed by the plaintext-secret validator
always passes — anonymization strips exactly the classifications the
validator inspects. -/
theorem claim_C10 (j : Json) :
    validate_no_plaintext_secrets (anonymize_for_federation j) = Except.ok () := by
  cases j with
  | obj fields =>
    show validate_no_plaintext_secrets (Json.obj (anonymizeFields fields)) = Except.ok ()
    simp [validate_no_plaintext_secrets, secretViolations_anonymizeFields]
  | arr xs => rfl
  | null => rfl
  | bool b => rfl
  | num n => rfl
  | str s => rfl

/-- C4: from a fresh state, after exactly 5 `record_failure` calls, a
check at `now` returns `CircuitOpen` with `until_ms = now + 30000`;
every further check strictly before that instant returns the same
error and leaves the state (in particular the window) untouched; a
check at `now + 30001` succeeds — for any config admitting at least
one request per window — and resets the failure counter to 0. -/
theorem claim_C4 (tid : String) (config : TenantRateLimitConfig) (now : Nat) :
    check_rate_limit tid config
        (record_failure (record_failure (record_failure (record_failure
          (record_failure RateLimitState.new))))) now =
      (Except.error (RateLimitError.CircuitOpen tid (now + 30000)),
        { window_hits := [], consecutive_failures := 5,
          circuit_open_until := some (now + 30000) }) ∧
    (∀ t, t < now + 30000 →
      check_rate_limit tid config
          { window_hits := [], consecutive_failures := 5,
            circuit_open_until := some (now + 30000) } t =
        (Except.error (RateLimitError.CircuitOpen tid (now + 30000)),
          { window_hits := [], consecutive_failures := 5,
            circuit_open_until := some (now + 30000) })) ∧
    (0 < config.requests_per_minute + config.burst_limit →
      (check_rate_limit tid config
          { window_hits := [], consecutive_failures := 5,
            circuit_open_until := some (now + 30000) } (now + 30001)).1 =
        Except.ok () ∧
      (check_rate_limit tid config
          { window_hits := [], consecutive_failures := 5,
            circuit_open_until := some (now + 30000) } (now + 30001)).2.consecutive_failures =
        0) := by
  refine ⟨rfl, ?_, ?_⟩
  · intro t ht
    simp only [check_rate_limit]
    rw [if_pos ht]
  · intro hpos
    have hred : check_rate_limit tid config
        { window_hits := [], consecutive_failures := 5,
          circuit_open_until := some (now + 30000) } (now + 30001) =
        (Except.ok (),
          { window_hits := [now + 30001], consecutive_failures := 0,
            circuit_open_until := none }) := by
      simp only [check_rate_limit]
      rw [if_neg (by omega)]
      simp only [check_rate_limit_core, CIRCUIT_BREAKER_THRESHOLD]
      rw [if_neg (by simp), if_neg (by simpa using by omega)]
      simp
    rw [hred]
    exact ⟨rfl, rfl⟩

/-- Witness for C4 at `now = 200000` with the default config. -/
theorem claim_C4_witness :
    check_rate_limit "t1" ⟨120, 20, 5368709120⟩
        { window_hits := [], consecutive_failures := 5,
          circuit_open_until := some 230000 } 229999 =
      (Except.error (RateLimitError.CircuitOpen "t1" 230000),
        { window_hits := [], consecutive_failures := 5,
          circuit_open_until := some 230000 }) ∧
    (check_rate_limit "t1" ⟨120, 20, 5368709120⟩
        { window_hits := [], consecutive_failures := 5,
          circuit_open_until := some 230000 } 230001).1 = Except.ok () ∧
    (check_rate_limit "t1" ⟨120, 20, 5368709120⟩
        { window_hits := [], consecutive_failures := 5,
          circuit_open_until := some 230000 } 230001).2.consecutive_failures = 0 :=
  ⟨(claim_C4 "t1" ⟨120, 20, 5368709120⟩ 200000).2.1 229999 (by decide),
    ((claim_C4 "t1" ⟨120, 20, 5368709120⟩ 200000).2.2 (by decide)).1,
    ((claim_C4 "t1" ⟨120, 20, 5368709120⟩ 200000).2.2 (by decide)).2⟩

/-- Bound of the core check: on success the recorded window holds at
most `requests_per_minute + burst_limit` hits. -/
theorem check_rate_limit_core_window_bound (tid : String)
    (config : TenantRateLimitConfig) (st : RateLimitState) (now : Nat)
    (h : (check_rate_limit_core tid config st now).1 = Except.ok ()) :
    (check_rate_limit_core tid config st now).2.window_hits.length ≤
      config.requests_per_minute + config.burst_limit := by
  simp only [check_rate_limit_core] at h ⊢
  split at h
  · exact absurd h (by simp)
  · split at h
    · exact absurd h (by simp)
    · rename_i hcirc hlim
      rw [if_neg hcirc, if_neg hlim]
      simp only [List.length_append, List.length_cons, List.length_nil]
      omega

/-- C5: with `requests_per_minute = 10` and `burst_limit = 5`, 15
consecutive checks inside one 60-second window all succeed and the
16th fails with `Exceeded`; in general, whenever a check succeeds the
recorded window holds at most `requests_per_minute + burst_limit`
requests. -/
theorem claim_C5 :
    ((run_checks "t1" ⟨10, 5, 1024⟩ RateLimitState.new
        [1000, 1001, 1002, 1003, 1004, 1005, 1006, 1007, 1008, 1009, 1010,
         1011, 1012, 1013, 1014]).1.all exceptIsOk = true ∧
      (check_rate_limit "t1" ⟨10, 5, 1024⟩
          (run_checks "t1" ⟨10, 5, 1024⟩ RateLimitState.new
            [1000, 1001, 1002, 1003, 1004, 1005, 1006, 1007, 1008, 1009, 1010,
             1011, 1012, 1013, 1014]).2 1015).1 =
        Except.error (RateLimitError.Exceeded "t1" 10)) ∧
    (∀ tid config st now,
      (check_rate_limit tid config st now).1 = Except.ok () →
      (check_rate_limit tid config st now).2.window_hits.length ≤
        config.requests_per_minute + config.burst_limit) := by
  refine ⟨⟨rfl, rfl⟩, ?_⟩
  intro tid config st now h
  obtain ⟨hits, fails, circ⟩ := st
  cases circ with
  | none =>
    exact check_rate_limit_core_window_bound tid config ⟨hits, fails, none⟩ now h
  | some u =>
    by_cases hlt : now < u
    · have h' : (if now < u then
            (Except.error (RateLimitError.CircuitOpen tid u),
              (⟨hits, fails, some u⟩ : RateLimitState))
          else check_rate_limit_core tid config ⟨hits, 0, none⟩ now).1 =
          Except.ok () := h
      rw [if_pos hlt] at h'
      exact absurd h' (by simp)
    · have h' : (if now < u then
            (Except.error (RateLimitError.CircuitOpen tid u),
              (⟨hits, fails, some u⟩ : RateLimitState))
          else check_rate_limit_core tid config ⟨hits, 0, none⟩ now).1 =
          Except.ok () := h
      rw [if_neg hlt] at h'
      have hb := check_rate_limit_core_window_bound tid config ⟨hits, 0, none⟩ now h'
      show (if now < u then
            (Except.error (RateLimitError.CircuitOpen tid u),
              (⟨hits, fails, some u⟩ : RateLimitState))
          else check_rate_limit_core tid config ⟨hits, 0, none⟩ now).2.window_hits.length ≤
        config.requests_per_minute + config.burst_limit
      rw [if_neg hlt]
      exact hb

/-- Witness for C5's general bound at a fresh state. -/
theorem claim_C5_witness :
    (check_rate_limit "t1" ⟨10, 5, 1024⟩ RateLimitState.new 0).1 = Except.ok () ∧
    (check_rate_limit "t1" ⟨10, 5, 1024⟩
        RateLimitState.new 0).2.window_hits.length ≤ 10 + 5 :=
  ⟨rfl, claim_C5.2 "t1" ⟨10, 5, 1024⟩ RateLimitState.new 0 rfl⟩

/-- The best-match loop never drops an already-held accumulator. -/
theorem find_best_rule_aux_isSome (req : PolicyCheckRequest) :
    ∀ (rules : List PolicyRuleRow) (b : PolicyRuleRow × Nat),
      ∃ p, find_best_rule_aux req (some b) rules = some p := by
  intro rules
  induction rules with
  | nil => intro b; exact ⟨b, rfl⟩
  | cons rule rest ih =>
    intro b
    obtain ⟨bb, bs⟩ := b
    cases hm : ruleMatches req rule with
    | false =>
      simp only [find_best_rule_aux, hm, Bool.false_eq_true, if_false]
      exact ih (bb, bs)
    | true =>
      simp only [find_best_rule_aux, hm, if_true]
      by_cases hlt : bs < ruleScore rule
      · rw [if_pos hlt]; exact ih (rule, ruleScore rule)
      · rw [if_neg hlt]; exact ih (bb, bs)

/-- Characterization of the best-match loop with a held accumulator:
the result is either the accumulator itself, dominating all matching
rules of the remainder, or a strictly better later rule, the first
one attaining its score. -/
theorem find_best_rule_aux_sound (req : PolicyCheckRequest) :
    ∀ (rules : List PolicyRuleRow) (b : PolicyRuleRow) (bs : Nat)
      (r : PolicyRuleRow) (s : Nat),
      ruleMatches req b = true → bs = ruleScore b →
      find_best_rule_aux req (some (b, bs)) rules = some (r, s) →
      ((r = b ∧ s = bs ∧
          ∀ r2 ∈ rules, ruleMatches req r2 = true → ruleScore r2 ≤ bs) ∨
        (ruleMatches req r = true ∧ s = ruleScore r ∧ bs < s ∧
          (∀ r2 ∈ rules, ruleMatches req r2 = true → ruleScore r2 ≤ s) ∧
          ∃ pre post, rules = pre ++ r :: post ∧
            ∀ r2 ∈ pre, ruleMatches req r2 = true → ruleScore r2 < s)) := by
  intro rules
  induction rules with
  | nil =>
    intro b bs r s hb hbs h
    simp only [find_best_rule_aux, Option.some.injEq, Prod.mk.injEq] at h
    obtain ⟨rfl, rfl⟩ := h
    exact Or.inl ⟨rfl, rfl, fun r2 hr2 => absurd hr2 (List.not_mem_nil r2)⟩
  | cons rule rest ih =>
    intro b bs r s hb hbs h
    cases hm : ruleMatches req rule with
    | false =>
      simp only [find_best_rule_aux, hm, Bool.false_eq_true, if_false] at h
      rcases ih b bs r s hb hbs h with ⟨h1, h2, h3⟩ |
        ⟨h1, h2, h3, h4, pre, post, heq, hpre⟩
      · refine Or.inl ⟨h1, h2, fun r2 hr2 hm2 => ?_⟩
        rcases List.mem_cons.mp hr2 with rfl | hr2'
        · rw [hm] at hm2; exact absurd hm2 (by simp)
        · exact h3 r2 hr2' hm2
      · refine Or.inr ⟨h1, h2, h3, fun r2 hr2 hm2 => ?_,
          rule :: pre, post, by rw [heq, List.cons_append], fun r2 hr2 hm2 => ?_⟩
        · rcases List.mem_cons.mp hr2 with rfl | hr2'
          · rw [hm] at hm2; exact absurd hm2 (by simp)
          · exact h4 r2 hr2' hm2
        · rcases List.mem_cons.mp hr2 with rfl | hr2'
          · rw [hm] at hm2; exact absurd hm2 (by simp)
          · exact hpre r2 hr2' hm2
    | true =>
      simp only [find_best_rule_aux, hm, if_true] at h
      by_cases hlt : bs < ruleScore rule
      · rw [if_pos hlt] at h
        rcases ih rule (ruleScore rule) r s hm rfl h with ⟨h1, h2, h3⟩ |
          ⟨h1, h2, h3, h4, pre, post, heq, hpre⟩
        · subst h1; subst h2
          refine Or.inr ⟨hm, rfl, hlt, fun r2 hr2 hm2 => ?_, [], rest, rfl,
            fun r2 hr2 _ => absurd hr2 (List.not_mem_nil r2)⟩
          rcases List.mem_cons.mp hr2 with rfl | hr2'
          · exact Nat.le_refl _
          · exact h3 r2 hr2' hm2
        · refine Or.inr ⟨h1, h2, Nat.lt_trans hlt h3, fun r2 hr2 hm2 => ?_,
            rule :: pre, post, by rw [heq, List.cons_append], fun r2 hr2 hm2 => ?_⟩
          · rcases List.mem_cons.mp hr2 with rfl | hr2'
            · exact Nat.le_of_lt h3
            · exact h4 r2 hr2' hm2
          · rcases List.mem_cons.mp hr2 with rfl | hr2'
            · exact h3
            · exact hpre r2 hr2' hm2
      · rw [if_neg hlt] at h
        have hge : ruleScore rule ≤ bs := Nat.le_of_not_lt hlt
        rcases ih b bs r s hb hbs h with ⟨h1, h2, h3⟩ |
          ⟨h1, h2, h3, h4, pre, post, heq, hpre⟩
        · refine Or.inl ⟨h1, h2, fun r2 hr2 hm2 => ?_⟩
          rcases List.mem_cons.mp hr2 with rfl | hr2'
          · exact hge
          · exact h3 r2 hr2' hm2
        · refine Or.inr ⟨h1, h2, h3, fun r2 hr2 hm2 => ?_,
            rule :: pre, post, by rw [heq, List.cons_append], fun r2 hr2 hm2 => ?_⟩
          · rcases List.mem_cons.mp hr2 with rfl | hr2'
            · exact Nat.le_trans hge (Nat.le_of_lt h3)
            · exact h4 r2 hr2' hm2
          · rcases List.mem_cons.mp hr2 with rfl | hr2'
            · exact Nat.lt_of_le_of_lt hge h3
            · exact hpre r2 hr2' hm2

/-- Characterization of `find_best_rule`: a returned rule matches, the
returned score is its specificity, no matching rule scores higher, and
every earlier matching rule scores strictly lower (ties go to the
earlier rule). -/
theorem find_best_rule_sound (req : PolicyCheckRequest) :
    ∀ (rules : List PolicyRuleRow) (r : PolicyRuleRow) (s : Nat),
      find_best_rule req rules = some (r, s) →
      ruleMatches req r = true ∧ s = ruleScore r ∧
      (∀ r2 ∈ rules, ruleMatches req r2 = true → ruleScore r2 ≤ s) ∧
      ∃ pre post, rules = pre ++ r :: post ∧
        ∀ r2 ∈ pre, ruleMatches req r2 = true → ruleScore r2 < s := by
  intro rules
  induction rules with
  | nil => intro r s h; exact absurd h (by simp [find_best_rule, find_best_rule_aux])
  | cons rule rest ih =>
    intro r s h
    cases hm : ruleMatches req rule with
    | false =>
      have h' : find_best_rule req rest = some (r, s) := by
        simpa [find_best_rule, find_best_rule_aux, hm] using h
      obtain ⟨h1, h2, h3, pre, post, heq, hpre⟩ := ih r s h'
      refine ⟨h1, h2, fun r2 hr2 hm2 => ?_,
        rule :: pre, post, by rw [heq, List.cons_append], fun r2 hr2 hm2 => ?_⟩
      · rcases List.mem_cons.mp hr2 with rfl | hr2'
        · rw [hm] at hm2; exact absurd hm2 (by simp)
        · exact h3 r2 hr2' hm2
      · rcases List.mem_cons.mp hr2 with rfl | hr2'
        · rw [hm] at hm2; exact absurd hm2 (by simp)
        · exact hpre r2 hr2' hm2
    | true =>
      have h' : find_best_rule_aux req (some (rule, ruleScore rule)) rest = some (r, s) := by
        simpa [find_best_rule, find_best_rule_aux, hm] using h
      rcases find_best_rule_aux_sound req rest rule (ruleScore rule) r s hm rfl h' with
        ⟨h1, h2, h3⟩ | ⟨h1, h2, h3, h4, pre, post, heq, hpre⟩
      · subst h1; subst h2
        refine ⟨hm, rfl, fun r2 hr2 hm2 => ?_, [], rest, rfl,
          fun r2 hr2 _ => absurd hr2 (List.not_mem_nil r2)⟩
        rcases List.mem_cons.mp hr2 with rfl | hr2'
        · exact Nat.le_refl _
        · exact h3 r2 hr2' hm2
      · refine ⟨h1, h2, fun r2 hr2 hm2 => ?_,
          rule :: pre, post, by rw [heq, List.cons_append], fun r2 hr2 hm2 => ?_⟩
        · rcases List.mem_cons.mp hr2 with rfl | hr2'
          · exact Nat.le_of_lt h3
          · exact h4 r2 hr2' hm2
        · rcases List.mem_cons.mp hr2 with rfl | hr2'
          · exact h3
          · exact hpre r2 hr2' hm2

/-- `find_best_rule` returns `none` exactly when no rule matches. -/
theorem find_best_rule_eq_none_iff (req : PolicyCheckRequest)
    (rules : List PolicyRuleRow) :
    find_best_rule req rules = none ↔ ∀ r ∈ rules, ruleMatches req r = false := by
  induction rules with
  | nil => simp [find_best_rule, find_best_rule_aux]
  | cons rule rest ih =>
    cases hm : ruleMatches req rule with
    | true =>
      simp only [find_best_rule, find_best_rule_aux, hm, if_true]
      constructor
      · intro h
        obtain ⟨p, hp⟩ := find_best_rule_aux_isSome req rest (rule, ruleScore rule)
        rw [hp] at h
        exact absurd h (by simp)
      · intro hall
        have := hall rule (List.mem_cons_self rule rest)
        rw [hm] at this
        exact absurd this (by simp)
    | false =>
      simp only [find_best_rule, find_best_rule_aux, hm, Bool.false_eq_true, if_false]
      constructor
      · intro h r2 hr2
        rcases List.mem_cons.mp hr2 with rfl | hr2'
        · exact hm
        · exact (ih.mp h) r2 hr2'
      · intro hall
        exact ih.mpr (fun r2 hr2 => hall r2 (List.mem_cons_of_mem rule hr2))

/-- C7: the specificity score is 2 points per exact field, 1 per
wildcarded-but-non-`*` field, 0 per bare `*` (hence the strict chain
of the four example patterns), and the specificity-variant evaluator
picks the matching rule of maximal score, ties going to the earlier
rule in list order. -/
theorem claim_C7 :
    (specificity_score "*" "*" "*" = 0 ∧
      specificity_score "*" "*" "*" < specificity_score "deploy" "*" "*" ∧
      specificity_score "deploy" "*" "*" < specificity_score "deploy" "prod" "*" ∧
      specificity_score "deploy" "prod" "*" <
        specificity_score "deploy" "prod" "agent-1") ∧
    (∀ a r c, specificity_score a r c =
      spec_field_points a + spec_field_points r + spec_field_points c) ∧
    (∀ req rules rule s, find_best_rule req rules = some (rule, s) →
      ruleMatches req rule = true ∧ s = ruleScore rule ∧
      (∀ r2 ∈ rules, ruleMatches req r2 = true → ruleScore r2 ≤ s) ∧
      ∃ pre post, rules = pre ++ rule :: post ∧
        ∀ r2 ∈ pre, ruleMatches req r2 = true → ruleScore r2 < s) ∧
    (∀ req rules, (∃ r ∈ rules, ruleMatches req r = true) →
      find_best_rule req rules ≠ none) := by
  refine ⟨by decide, ?_, ?_, ?_⟩
  · intro a r c
    simp only [specificity_score, spec_field_points]
    by_cases ha : a = "*" <;> by_cases hr : r = "*" <;> by_cases hc : c = "*" <;>
      simp [ha, hr, hc]
  · exact fun req rules rule s h => find_best_rule_sound req rules rule s h
  · rintro req rules ⟨r0, hr0, hm0⟩ hnone
    have := (find_best_rule_eq_none_iff req rules).mp hnone r0 hr0
    rw [hm0] at this
    exact absurd this (by simp)

/-- Witness for C7: between a wildcard rule and a fully exact rule,
both matching, the exact rule (score 6) is selected. -/
theorem claim_C7_witness :
    find_best_rule ⟨"deploy", some "prod", "agent-1"⟩
        [⟨"r1", "*", "*", "*", "allow", "default", "low"⟩,
          ⟨"r2", "deploy", "prod", "agent-1", "deny", "explicit", "high"⟩] =
      some (⟨"r2", "deploy", "prod", "agent-1", "deny", "explicit", "high"⟩, 6) ∧
    ruleMatches ⟨"deploy", some "prod", "agent-1"⟩
        ⟨"r2", "deploy", "prod", "agent-1", "deny", "explicit", "high"⟩ = true ∧
    6 = ruleScore ⟨"r2", "deploy", "prod", "agent-1", "deny", "explicit", "high"⟩ :=
  ⟨rfl,
    (claim_C7.2.2.1 ⟨"deploy", some "prod", "agent-1"⟩
      [⟨"r1", "*", "*", "*", "allow", "default", "low"⟩,
        ⟨"r2", "deploy", "prod", "agent-1", "deny", "explicit", "high"⟩]
      ⟨"r2", "deploy", "prod", "agent-1", "deny", "explicit", "high"⟩ 6 rfl).1,
    (claim_C7.2.2.1 ⟨"deploy", some "prod", "agent-1"⟩
      [⟨"r1", "*", "*", "*", "allow", "default", "low"⟩,
        ⟨"r2", "deploy", "prod", "agent-1", "deny", "explicit", "high"⟩]
      ⟨"r2", "deploy", "prod", "agent-1", "deny", "explicit", "high"⟩ 6 rfl).2.1⟩

/-- C8 counterexample: with no matching rule the code's fallback
reasons are "no matching rule; read actions default-allowed" (resp.
"no matching rule; high-risk action requires explicit policy"), not
the exact strings the claim states. -/
theorem claim_C8_counterexample :
    evaluate_policy [] ⟨"read-x", none, "alice"⟩ =
      ("allow", "no matching rule; read actions default-allowed", "read", none) ∧
    ("no matching rule; read actions default-allowed" : String) ≠
      "no matching rule; default-allowed" ∧
    evaluate_policy [] ⟨"delete-x", none, "alice"⟩ =
      ("escalate", "no matching rule; high-risk action requires explicit policy",
        "destructive", none) ∧
    ("no matching rule; high-risk action requires explicit policy" : String) ≠
      "high-risk action requires explicit policy" :=
  ⟨rfl, by decide, rfl, by decide⟩

/-- C8 (amended): when no enabled rule matches, the verdict is allow
for read/write-risk actions and escalate for destructive/irreversible
ones, with the code's actual fallback reason strings ("no matching
rule; read actions default-allowed", "no matching rule; write actions
default-allowed", "no matching rule; high-risk action requires
explicit policy"). -/
theorem claim_C8_amended (rules : List PolicyRuleRow) (req : PolicyCheckRequest)
    (hnone : ∀ r ∈ rules, ruleMatches req r = false) :
    (classify_action_risk req.action = "read" →
      evaluate_policy rules req =
        ("allow", "no matching rule; read actions default-allowed", "read", none)) ∧
    (classify_action_risk req.action = "write" →
      evaluate_policy rules req =
        ("allow", "no matching rule; write actions default-allowed", "write", none)) ∧
    (classify_action_risk req.action = "destructive" →
      evaluate_policy rules req =
        ("escalate", "no matching rule; high-risk action requires explicit policy",
          "destructive", none)) ∧
    (classify_action_risk req.action = "irreversible" →
      evaluate_policy rules req =
        ("escalate", "no matching rule; high-risk action requires explicit policy",
          "irreversible", none)) := by
  have hfb : find_best_rule req rules = none :=
    (find_best_rule_eq_none_iff req rules).mpr hnone
  refine ⟨?_, ?_, ?_, ?_⟩ <;> intro hcl <;> simp [evaluate_policy, hfb, hcl]

/-- Witness for C8: the empty rule list and a read-classified action. -/
theorem claim_C8_witness :
    evaluate_policy [] ⟨"get-status", none, "alice"⟩ =
      ("allow", "no matching rule; read actions default-allowed", "read", none) :=
  (claim_C8_amended [] ⟨"get-status", none, "alice"⟩
    (fun r hr => absurd hr (List.not_mem_nil r))).1 rfl
